import Mathlib

/-
  Verification development for the Python cyclomatic-complexity analyzer
  (src/python-analyzer/complexity_analyzer.py).

  Shallow embedding notes, to be read next to the Python source:

  * The Python AST is modelled as a rose tree: every node has a kind, a
    source line, and the list of its child AST nodes in field order.
    Operator leaves (ast.And, ast.Or, ast.Not, ...), argument lists,
    names and other constructs the analyzer never treats specially are
    represented with the catch-all kind kOther; visiting them adds
    nothing and merely recurses, exactly as in the source.  Column and
    end-position attributes of nodes are copied verbatim into records
    by the source and inspected by no claim, so they are elided.

  * Class ComplexityCounter OVERRIDES the method named visit of
    ast.NodeVisitor.  The inherited generic_visit calls self.visit on
    every child, which resolves to the override, and the entry call in
    ComplexityVisitor._visit_function is also the override.  The base
    dispatcher of ast.NodeVisitor (the only caller of methods named
    visit_BoolOp, visit_ListComp, visit_SetComp, visit_DictComp,
    visit_GeneratorExp, visit_Match) therefore never runs for this
    class: those handlers are unreachable.  The embedding of visit
    below is the body of the override; the unreachable handlers are
    embedded separately for reference.

  * Class ComplexityVisitor does NOT override visit, so the standard
    dispatcher runs: function definitions go to _visit_function and
    every other node goes to generic_visit.  _visit_function contains
    no generic_visit call, hence discovery never descends into a
    function definition.
-/

/-- Kind of a boolean-operator node: ast.And or ast.Or. -/
inductive BoolKind where
  | bAnd
  | bOr
deriving DecidableEq, Repr

/-- AST node kinds the analyzer distinguishes.  kMatchCase carries the
two facts about its pattern that visit_Match inspects: whether the
pattern is an ast.MatchAs node, and that nodes optional name. -/
inductive NodeKind where
  | kIf
  | kWhile
  | kFor
  | kExceptHandler
  | kAssert
  | kWith
  | kIfExp
  | kBoolOp (op : BoolKind)
  | kListComp
  | kSetComp
  | kDictComp
  | kGeneratorExp
  | kMatch
  | kMatchCase (patIsMatchAs : Bool) (patName : Option String)
  | kFunctionDef (fname : String)
  | kAsyncFunctionDef (fname : String)
  | kOther (tag : String)
deriving DecidableEq, Repr

/-- A Python AST node: kind, lineno, children in field order.  For a
kBoolOp node the children are exactly the values of the chain (the
operator leaf is elided: it is an AST object without special handling
or children, so visiting it has no effect). -/
inductive PyNode : Type where
  | node (kind : NodeKind) (lineno : Nat) (children : List PyNode)
deriving Repr

/-- Effective configuration: the name entry of the dict plus the
boolean flag entries.  The description entry is read by nothing. -/
structure Config where
  name : String
  flags : List (String × Bool)
deriving DecidableEq, Repr

/-- config.get(key, default) restricted to the boolean flag keys. -/
def cfgGet (c : Config) (key : String) (dflt : Bool) : Bool :=
  (List.lookup key c.flags).getD dflt

/-- The PRESETS table, flags in source order. -/
def strict_mccabe : Config :=
  { name := "Strict McCabe",
    flags := [("countIf", true), ("countWhile", true), ("countFor", true),
              ("countExcept", true), ("countAssert", false), ("countBoolOp", false),
              ("countTernary", true), ("countComprehension", false),
              ("countComprehensionIf", false), ("countMatch", true),
              ("countWith", false)] }

/-- The standard preset. -/
def standardConfig : Config :=
  { name := "Standard (Industry Common)",
    flags := [("countIf", true), ("countWhile", true), ("countFor", true),
              ("countExcept", true), ("countAssert", false), ("countBoolOp", true),
              ("countTernary", true), ("countComprehension", true),
              ("countComprehensionIf", true), ("countMatch", true),
              ("countWith", false)] }

/-- The comprehensive preset. -/
def comprehensiveConfig : Config :=
  { name := "Comprehensive",
    flags := [("countIf", true), ("countWhile", true), ("countFor", true),
              ("countExcept", true), ("countAssert", true), ("countBoolOp", true),
              ("countTernary", true), ("countComprehension", true),
              ("countComprehensionIf", true), ("countMatch", true),
              ("countWith", true)] }

/-- PRESETS as an association table keyed by preset id. -/
def PRESETS : List (String × Config) :=
  [("strict_mccabe", strict_mccabe),
   ("standard", standardConfig),
   ("comprehensive", comprehensiveConfig)]

/-- One ComplexityDetail record. -/
structure ComplexityDetail where
  type : String
  line : Nat
  amount : Nat
  description : String
deriving DecidableEq, Repr

/-- State of one ComplexityCounter instance. -/
structure ComplexityCounter where
  complexity : Nat
  config : Config
  collect_details : Bool
  details : List ComplexityDetail
deriving Repr

/-- ComplexityCounter.__init__(config, collect_details): base complexity 1,
empty details. -/
def ComplexityCounter.init (config : Config) (collect_details : Bool) :
    ComplexityCounter :=
  { complexity := 1, config := config, collect_details := collect_details,
    details := [] }

/-- ComplexityCounter._add_complexity. -/
def ComplexityCounter._add_complexity (self : ComplexityCounter) (amount : Nat)
    (node_type : String) (line : Nat) (description : String) :
    ComplexityCounter :=
  let self := { self with complexity := self.complexity + amount }
  if self.collect_details then
    { self with
      details := self.details ++ [⟨node_type, line, amount, description⟩] }
  else self

/-- The SIMPLE_HANDLERS registry: node kind to
(type_name, description, config_key).  The registered classes are
pairwise unrelated, so the first-match-then-break loop of the source
selects at most one entry, which this total match reproduces. -/
def simpleHandlerFor : NodeKind → Option (String × String × String)
  | .kIf => some ("if", "if statement", "countIf")
  | .kWhile => some ("while", "while loop", "countWhile")
  | .kFor => some ("for", "for loop", "countFor")
  | .kExceptHandler => some ("except", "exception handler", "countExcept")
  | .kAssert => some ("assert", "assert statement", "countAssert")
  | .kWith => some ("with", "with statement", "countWith")
  | .kIfExp => some ("ternary", "ternary expression", "countTernary")
  | _ => none

mutual

/-- ComplexityCounter.visit (the override): apply the simple-handler
registry to the node, then continue traversal into the children.  This
is the procedure executed for EVERY node reached by the counter; see
the header note on why the named visit_* handlers never run. -/
def ComplexityCounter.visit (self : ComplexityCounter) (n : PyNode) :
    ComplexityCounter :=
  match n with
  | .node k line children =>
    let self1 :=
      match simpleHandlerFor k with
      | some (type_name, desc, config_key) =>
        if cfgGet self.config config_key true then
          self._add_complexity 1 type_name line desc
        else self
      | none => self
    ComplexityCounter.generic_visit self1 children

/-- ast.NodeVisitor.generic_visit as executed by ComplexityCounter:
visit every child in order (self.visit resolves to the override). -/
def ComplexityCounter.generic_visit (self : ComplexityCounter)
    (children : List PyNode) : ComplexityCounter :=
  match children with
  | [] => self
  | c :: rest =>
    ComplexityCounter.generic_visit (ComplexityCounter.visit self c) rest

end

/-- One FunctionRecord (the function_info dict of _visit_function).
The column and end-position fields are elided (see header note). -/
structure FunctionRecord where
  name : String
  line : Nat
  is_async : Bool
  complexity : Nat
  details : List ComplexityDetail
deriving DecidableEq, Repr

/-- ComplexityVisitor._visit_function: build the record and run one
fresh counter over the function node itself.  The current_function
save/restore of the source is dead state (nothing ever reads it) and
the function body is not traversed further by the discovery visitor
(the source contains no generic_visit call here). -/
def ComplexityVisitor._visit_function (cfg : Config) (fname : String)
    (is_async : Bool) (n : PyNode) : FunctionRecord :=
  match n with
  | .node _ line _ =>
    let counter := (ComplexityCounter.init cfg true).visit n
    { name := fname, line := line, is_async := is_async,
      complexity := counter.complexity, details := counter.details }

mutual

/-- ast.NodeVisitor.visit as executed by ComplexityVisitor (which does
not override it): dispatch function definitions to _visit_function and
everything else to generic_visit.  Yields the functions list in
discovery order. -/
def ComplexityVisitor.visit (cfg : Config) (n : PyNode) :
    List FunctionRecord :=
  match n with
  | .node (.kFunctionDef fname) line children =>
    [ComplexityVisitor._visit_function cfg fname false
      (.node (.kFunctionDef fname) line children)]
  | .node (.kAsyncFunctionDef fname) line children =>
    [ComplexityVisitor._visit_function cfg fname true
      (.node (.kAsyncFunctionDef fname) line children)]
  | .node _ _ children =>
    ComplexityVisitor.generic_visit cfg children

/-- ComplexityVisitor traversal over a list of children. -/
def ComplexityVisitor.generic_visit (cfg : Config) (children : List PyNode) :
    List FunctionRecord :=
  match children with
  | [] => []
  | c :: rest =>
    ComplexityVisitor.visit cfg c ++ ComplexityVisitor.generic_visit cfg rest

end

/-- AnalysisResult on the success path of analyze_file: the tree was
already parsed, so this embeds the body after ast.parse succeeded. -/
structure AnalysisResult where
  success : Bool
  functions : List FunctionRecord
  total_functions : Nat
  config_used : String
deriving DecidableEq, Repr

/-- The success branch of analyze_file, applied to an already-parsed
tree: run the visitor and package the result. -/
def analyze (cfg : Config) (tree : PyNode) : AnalysisResult :=
  let fns := ComplexityVisitor.visit cfg tree
  { success := true, functions := fns, total_functions := fns.length,
    config_used := cfg.name }

/-
  Unreachable handler methods of ComplexityCounter, embedded for
  reference (see the header note: the overriding visit is the only
  procedure the counter ever executes, and nothing calls these).  They
  follow the source bodies; visit_Match reads the cases from the
  children that are kMatchCase nodes, and the comprehension handler is
  parameterized by the per-generator counts of if clauses, which is
  all of the generators field it reads.
-/

/-- ComplexityCounter.visit_BoolOp, contribution step only (the
trailing generic_visit call is the shared traversal).  Unreachable. -/
def ComplexityCounter.visit_BoolOp (self : ComplexityCounter)
    (op : BoolKind) (lineno : Nat) (values : List PyNode) :
    ComplexityCounter :=
  if cfgGet self.config "countBoolOp" true then
    let op_name := match op with | .bAnd => "and" | .bOr => "or"
    let amount := values.length - 1
    self._add_complexity amount "bool_op" lineno
      (toString amount ++ " " ++ op_name ++ " operator(s)")
  else self

/-- ComplexityCounter._handle_comprehension.  Unreachable. -/
def ComplexityCounter._handle_comprehension (self : ComplexityCounter)
    (comp_type : String) (description : String) (lineno : Nat)
    (generatorIfCounts : List Nat) : ComplexityCounter :=
  if !cfgGet self.config "countComprehension" true then self
  else
    generatorIfCounts.foldl
      (fun st ifCount =>
        let st := st._add_complexity 1 comp_type lineno description
        if cfgGet st.config "countComprehensionIf" true then
          (List.range ifCount).foldl
            (fun st2 _ => st2._add_complexity 1 "comp_if" lineno
              "comprehension if") st
        else st)
      self

/-- ComplexityCounter.visit_Match, contribution step only.
Unreachable. -/
def ComplexityCounter.visit_Match (self : ComplexityCounter)
    (lineno : Nat) (children : List PyNode) : ComplexityCounter :=
  if cfgGet self.config "countMatch" true then
    children.foldl
      (fun st c =>
        match c with
        | .node (.kMatchCase patIsMatchAs patName) _ _ =>
          if !patIsMatchAs || patName ≠ none then
            st._add_complexity 1 "match_case" lineno "match case"
          else st
        | _ => st)
      self
  else self

/-
  Configuration resolver (load_config / find_project_config).  The
  upward directory walk is abstracted as the list of directories the
  source loop would examine, in walk order, each carrying the state of
  its .complexity.json file; the stderr diagnostic stream is the
  second component of the returned pair.
-/

/-- State of the .complexity.json file in one examined directory. -/
inductive ConfigFileState where
  | absent
  | malformed (msg : String)
  | wellFormed (overrides : List (String × Bool))
deriving DecidableEq, Repr

/-- dict.update(overrides) on a flag table, modelled through lookup
semantics: a key present in the overrides wins, every other key keeps
its base value. -/
def dictUpdate (base overrides : List (String × Bool)) :
    List (String × Bool) :=
  overrides ++ base

/-- find_project_config: walk the directories in order; the first
directory whose file exists decides the outcome.  A parse failure
prints a warning to stderr and returns None without walking further,
exactly as the source try/except does. -/
def find_project_config : List ConfigFileState →
    Option (List (String × Bool)) × List String
  | [] => (none, [])
  | d :: rest =>
    match d with
    | .absent => find_project_config rest
    | .malformed msg =>
      (none, ["Warning: Failed to load .complexity.json: " ++ msg])
    | .wellFormed overrides => (some overrides, [])

/-- Step 1 of load_config.  The source guard is
(preset and preset in PRESETS): a None or empty-string argument is
falsy, and an unknown name misses the table; both fall back to the
standard preset. -/
def selectBasePreset : Option String → Config
  | none => standardConfig
  | some p =>
    if p == "" then standardConfig
    else
      match List.lookup p PRESETS with
      | some pr => pr
      | none => standardConfig

/-- load_config: base preset, then project override file, then the
COMPLEXITY_PRESET environment variable (modelled as a parameter),
which overlays a whole preset when it names one.  Returns the
effective config together with the warnings printed to stderr. -/
def load_config (preset : Option String) (dirs : List ConfigFileState)
    (env : Option String) : Config × List String :=
  let base := selectBasePreset preset
  let found := find_project_config dirs
  let flags1 := match found.1 with
    | some overrides => dictUpdate base.flags overrides
    | none => base.flags
  let withEnv : Config := match env with
    | none => { name := base.name, flags := flags1 }
    | some e =>
      if e == "" then { name := base.name, flags := flags1 }
      else
        match List.lookup e PRESETS with
        | some pr =>
          { name := pr.name, flags := dictUpdate flags1 pr.flags }
        | none => { name := base.name, flags := flags1 }
  (withEnv, found.2)

/-
  Compositional characterization of the counting pass, used by the
  proofs: the increment contributed at one node, the total over a
  subtree, and the details emitted over a subtree.
-/

/-- The complexity increment the executed visit adds at one node
(children excluded). -/
def nodeIncrement (c : Config) (k : NodeKind) : Nat :=
  match simpleHandlerFor k with
  | some h => if cfgGet c h.2.2 true then 1 else 0
  | none => 0

/-- The detail entries the executed visit emits at one node
(children excluded). -/
def nodeOwnDetails (c : Config) (k : NodeKind) (line : Nat) :
    List ComplexityDetail :=
  match simpleHandlerFor k with
  | some h => if cfgGet c h.2.2 true then [⟨h.1, line, 1, h.2.1⟩] else []
  | none => []

mutual

/-- Total complexity increment of the executed pass over a subtree. -/
def nodeCount (c : Config) : PyNode → Nat
  | .node k _ children => nodeIncrement c k + listCount c children

/-- Total complexity increment over a list of subtrees. -/
def listCount (c : Config) : List PyNode → Nat
  | [] => 0
  | n :: rest => nodeCount c n + listCount c rest

end

mutual

/-- Detail entries of the executed pass over a subtree, in emission
order. -/
def nodeDetails (c : Config) : PyNode → List ComplexityDetail
  | .node k line children => nodeOwnDetails c k line ++ listDetails c children

/-- Detail entries over a list of subtrees. -/
def listDetails (c : Config) : List PyNode → List ComplexityDetail
  | [] => []
  | n :: rest => nodeDetails c n ++ listDetails c rest

end

/-- The flag keys the executed pass ever consults. -/
def simpleKeys : List String :=
  ["countIf", "countWhile", "countFor", "countExcept", "countAssert",
   "countWith", "countTernary"]

/-- Whether a node kind is a decision-point construct in the sense of
the specification table (conditionals, loops, exception handlers,
assertions, scoped-resource statements, ternaries, boolean chains,
comprehensions, pattern-match statements and their cases). -/
def decisionKind : NodeKind → Bool
  | .kIf => true
  | .kWhile => true
  | .kFor => true
  | .kExceptHandler => true
  | .kAssert => true
  | .kWith => true
  | .kIfExp => true
  | .kBoolOp _ => true
  | .kListComp => true
  | .kSetComp => true
  | .kDictComp => true
  | .kGeneratorExp => true
  | .kMatch => true
  | .kMatchCase _ _ => true
  | _ => false

mutual

/-- Whether a subtree contains a decision-point construct. -/
def hasDecision : PyNode → Bool
  | .node k _ children => decisionKind k || listHasDecision children

/-- Whether a list of subtrees contains a decision-point construct. -/
def listHasDecision : List PyNode → Bool
  | [] => false
  | n :: rest => hasDecision n || listHasDecision rest

end

/-- Sum of the amount fields of a detail list. -/
def sumAmounts (ds : List ComplexityDetail) : Nat :=
  ds.foldr (fun d acc => d.amount + acc) 0

/-- Set one flag of a config, leaving every other key unchanged (dict
item assignment, modelled through lookup semantics). -/
def setFlag (c : Config) (key : String) (v : Bool) : Config :=
  { c with flags := (key, v) :: c.flags }

/-- A config whose flag table is empty: every lookup falls back to the
default of config.get, which is True at every site the executed pass
consults. -/
def emptyConfig : Config := { name := "custom", flags := [] }

/-
  Concrete input trees used by the counterexamples and witnesses.
  Each is the ast.parse image of the quoted Python source, with
  constructs the analyzer never treats specially collapsed to kOther.
-/

/-- AST of: def outer():  def inner(x):  if x: return 1  else-less.
Lines: outer at 1, inner at 2, the if at 3. -/
def outerInnerDef : PyNode :=
  .node (.kFunctionDef "outer") 1 [
    .node (.kOther "arguments") 1 [],
    .node (.kFunctionDef "inner") 2 [
      .node (.kOther "arguments") 2 [],
      .node .kIf 3 [
        .node (.kOther "Name") 3 [],
        .node (.kOther "Return") 4 [.node (.kOther "Constant") 4 []]],
      .node (.kOther "Return") 5 [.node (.kOther "Constant") 5 []]]]

/-- Module wrapping outerInnerDef. -/
def outerInnerModule : PyNode := .node (.kOther "Module") 1 [outerInnerDef]

/-- AST of: def g(a, b): return a and b or not a.  The boolean
expression parses as Or applied to [And applied to [a, b], Not a]. -/
def gDef : PyNode :=
  .node (.kFunctionDef "g") 1 [
    .node (.kOther "arguments") 1 [],
    .node (.kOther "Return") 1 [
      .node (.kBoolOp .bOr) 1 [
        .node (.kBoolOp .bAnd) 1
          [.node (.kOther "Name") 1 [], .node (.kOther "Name") 1 []],
        .node (.kOther "UnaryOp") 1 [.node (.kOther "Name") 1 []]]]]

/-- Module wrapping gDef. -/
def gModule : PyNode := .node (.kOther "Module") 1 [gDef]

/-- AST of: def f(a, b): return a and b.  One boolean chain of two
operands. -/
def andDef : PyNode :=
  .node (.kFunctionDef "f") 1 [
    .node (.kOther "arguments") 1 [],
    .node (.kOther "Return") 1 [
      .node (.kBoolOp .bAnd) 1
        [.node (.kOther "Name") 1 [], .node (.kOther "Name") 1 []]]]

/-- Module wrapping andDef. -/
def andModule : PyNode := .node (.kOther "Module") 1 [andDef]

/-- AST of: def m(x): match x: case 1: return 1; case unders: return 0.
Two cases, the second the bare wildcard (MatchAs with no name). -/
def matchDef : PyNode :=
  .node (.kFunctionDef "m") 1 [
    .node (.kOther "arguments") 1 [],
    .node .kMatch 2 [
      .node (.kOther "Name") 2 [],
      .node (.kMatchCase false none) 3 [
        .node (.kOther "Return") 3 [.node (.kOther "Constant") 3 []]],
      .node (.kMatchCase true none) 4 [
        .node (.kOther "Return") 4 [.node (.kOther "Constant") 4 []]]]]

/-- Module wrapping matchDef. -/
def matchModule : PyNode := .node (.kOther "Module") 1 [matchDef]

/-- AST of: def h(): return 1.  No decision points anywhere. -/
def plainDef : PyNode :=
  .node (.kFunctionDef "h") 1 [
    .node (.kOther "arguments") 1 [],
    .node (.kOther "Return") 1 [.node (.kOther "Constant") 1 []]]

/-- Module wrapping plainDef. -/
def plainModule : PyNode := .node (.kOther "Module") 1 [plainDef]

mutual

theorem ComplexityCounter.visit_spec (s : ComplexityCounter) (n : PyNode) :
    s.visit n = { s with
      complexity := s.complexity + nodeCount s.config n,
      details := s.details ++
        (if s.collect_details then nodeDetails s.config n else []) } := by
  match n with
  | .node k line children =>
    rw [ComplexityCounter.visit]
    cases hk : simpleHandlerFor k with
    | none =>
      simp only [hk]
      rw [ComplexityCounter.generic_visit_spec s children]
      simp [nodeCount, nodeDetails, nodeIncrement, nodeOwnDetails, hk]
    | some h =>
      obtain ⟨tn, desc, key⟩ := h
      simp only [hk]
      by_cases hc : cfgGet s.config key true
      · rw [if_pos hc]
        rw [ComplexityCounter.generic_visit_spec
          (s._add_complexity 1 tn line desc) children]
        cases hcol : s.collect_details with
        | true =>
          simp [ComplexityCounter._add_complexity, hcol, nodeCount, nodeDetails,
            nodeIncrement, nodeOwnDetails, hk, hc, Nat.add_assoc, Nat.add_comm 1]
        | false =>
          simp [ComplexityCounter._add_complexity, hcol, nodeCount, nodeDetails,
            nodeIncrement, nodeOwnDetails, hk, hc, Nat.add_assoc, Nat.add_comm 1]
      · rw [if_neg hc]
        rw [ComplexityCounter.generic_visit_spec s children]
        simp [nodeCount, nodeDetails, nodeIncrement, nodeOwnDetails, hk, hc]
termination_by sizeOf n

theorem ComplexityCounter.generic_visit_spec (s : ComplexityCounter)
    (ns : List PyNode) :
    s.generic_visit ns = { s with
      complexity := s.complexity + listCount s.config ns,
      details := s.details ++
        (if s.collect_details then listDetails s.config ns else []) } := by
  match ns with
  | [] =>
    rw [ComplexityCounter.generic_visit]
    simp [listCount, listDetails]
  | n :: rest =>
    rw [ComplexityCounter.generic_visit]
    rw [ComplexityCounter.visit_spec s n]
    rw [ComplexityCounter.generic_visit_spec _ rest]
    cases hcol : s.collect_details with
    | true =>
      simp [listCount, listDetails, hcol, Nat.add_assoc]
    | false =>
      simp [listCount, listDetails, hcol, Nat.add_assoc]
termination_by sizeOf ns

end

/-- Complexity of the counting pass as run by _visit_function. -/
theorem run_complexity (c : Config) (t : PyNode) :
    ((ComplexityCounter.init c true).visit t).complexity = 1 + nodeCount c t := by
  rw [ComplexityCounter.visit_spec]
  simp [ComplexityCounter.init]

/-- Details of the counting pass as run by _visit_function. -/
theorem run_details (c : Config) (t : PyNode) :
    ((ComplexityCounter.init c true).visit t).details = nodeDetails c t := by
  rw [ComplexityCounter.visit_spec]
  simp [ComplexityCounter.init]

/-- A key the simple-handler registry can produce is one of the seven
consulted flag keys. -/
theorem handler_key_mem (k : NodeKind) (tn desc key : String)
    (hk : simpleHandlerFor k = some (tn, desc, key)) : key ∈ simpleKeys := by
  cases k <;> simp_all [simpleHandlerFor, simpleKeys]

/-- Per-node monotonicity of the increment in the flag table. -/
theorem nodeIncrement_mono (c1 c2 : Config)
    (h : ∀ k ∈ simpleKeys, cfgGet c1 k true = true → cfgGet c2 k true = true)
    (k : NodeKind) : nodeIncrement c1 k ≤ nodeIncrement c2 k := by
  unfold nodeIncrement
  cases hk : simpleHandlerFor k with
  | none => simp
  | some hnd =>
    obtain ⟨tn, desc, key⟩ := hnd
    by_cases hc : cfgGet c1 key true
    · have h2 := h key (handler_key_mem k tn desc key hk) hc
      simp [hc, h2]
    · simp [hc]

mutual

/-- Subtree monotonicity of the executed count in the flag table. -/
theorem nodeCount_mono (c1 c2 : Config)
    (h : ∀ k ∈ simpleKeys, cfgGet c1 k true = true → cfgGet c2 k true = true) :
    ∀ n : PyNode, nodeCount c1 n ≤ nodeCount c2 n
  | .node k _ children => by
    rw [nodeCount, nodeCount]
    exact Nat.add_le_add (nodeIncrement_mono c1 c2 h k)
      (listCount_mono c1 c2 h children)

/-- List version of nodeCount_mono. -/
theorem listCount_mono (c1 c2 : Config)
    (h : ∀ k ∈ simpleKeys, cfgGet c1 k true = true → cfgGet c2 k true = true) :
    ∀ ns : List PyNode, listCount c1 ns ≤ listCount c2 ns
  | [] => by rw [listCount, listCount]
  | n :: rest => by
    rw [listCount, listCount]
    exact Nat.add_le_add (nodeCount_mono c1 c2 h n)
      (listCount_mono c1 c2 h rest)

end

/-- Per-node congruence of the increment in the consulted flags. -/
theorem nodeIncrement_congr (c1 c2 : Config)
    (h : ∀ k ∈ simpleKeys, cfgGet c1 k true = cfgGet c2 k true)
    (k : NodeKind) : nodeIncrement c1 k = nodeIncrement c2 k := by
  unfold nodeIncrement
  cases hk : simpleHandlerFor k with
  | none => rfl
  | some hnd =>
    obtain ⟨tn, desc, key⟩ := hnd
    have h2 := h key (handler_key_mem k tn desc key hk)
    simp [h2]

/-- Per-node congruence of the emitted details in the consulted flags. -/
theorem nodeOwnDetails_congr (c1 c2 : Config)
    (h : ∀ k ∈ simpleKeys, cfgGet c1 k true = cfgGet c2 k true)
    (k : NodeKind) (line : Nat) :
    nodeOwnDetails c1 k line = nodeOwnDetails c2 k line := by
  unfold nodeOwnDetails
  cases hk : simpleHandlerFor k with
  | none => rfl
  | some hnd =>
    obtain ⟨tn, desc, key⟩ := hnd
    have h2 := h key (handler_key_mem k tn desc key hk)
    simp [h2]

mutual

/-- Subtree congruence of the executed count in the consulted flags. -/
theorem nodeCount_congr (c1 c2 : Config)
    (h : ∀ k ∈ simpleKeys, cfgGet c1 k true = cfgGet c2 k true) :
    ∀ n : PyNode, nodeCount c1 n = nodeCount c2 n
  | .node k _ children => by
    rw [nodeCount, nodeCount, nodeIncrement_congr c1 c2 h k,
      listCount_congr c1 c2 h children]

/-- List version of nodeCount_congr. -/
theorem listCount_congr (c1 c2 : Config)
    (h : ∀ k ∈ simpleKeys, cfgGet c1 k true = cfgGet c2 k true) :
    ∀ ns : List PyNode, listCount c1 ns = listCount c2 ns
  | [] => by rw [listCount, listCount]
  | n :: rest => by
    rw [listCount, listCount, nodeCount_congr c1 c2 h n,
      listCount_congr c1 c2 h rest]

end

mutual

/-- Subtree congruence of the emitted details in the consulted flags. -/
theorem nodeDetails_congr (c1 c2 : Config)
    (h : ∀ k ∈ simpleKeys, cfgGet c1 k true = cfgGet c2 k true) :
    ∀ n : PyNode, nodeDetails c1 n = nodeDetails c2 n
  | .node k line children => by
    rw [nodeDetails, nodeDetails, nodeOwnDetails_congr c1 c2 h k line,
      listDetails_congr c1 c2 h children]

/-- List version of nodeDetails_congr. -/
theorem listDetails_congr (c1 c2 : Config)
    (h : ∀ k ∈ simpleKeys, cfgGet c1 k true = cfgGet c2 k true) :
    ∀ ns : List PyNode, listDetails c1 ns = listDetails c2 ns
  | [] => by rw [listDetails, listDetails]
  | n :: rest => by
    rw [listDetails, listDetails, nodeDetails_congr c1 c2 h n,
      listDetails_congr c1 c2 h rest]

end

/-- A kind that is not a decision-point construct has no simple
handler. -/
theorem no_decision_no_handler (k : NodeKind) (h : decisionKind k = false) :
    simpleHandlerFor k = none := by
  cases k <;> simp_all [decisionKind, simpleHandlerFor]

mutual

/-- A subtree without decision-point constructs contributes nothing. -/
theorem nodeCount_no_decision (c : Config) :
    ∀ n : PyNode, hasDecision n = false →
      nodeCount c n = 0 ∧ nodeDetails c n = []
  | .node k line children => by
    intro h
    rw [hasDecision] at h
    simp only [Bool.or_eq_false_iff] at h
    have hh := no_decision_no_handler k h.1
    have hl := listCount_no_decision c children h.2
    rw [nodeCount, nodeDetails, nodeIncrement, nodeOwnDetails, hh]
    simp [hl.1, hl.2]

/-- List version of nodeCount_no_decision. -/
theorem listCount_no_decision (c : Config) :
    ∀ ns : List PyNode, listHasDecision ns = false →
      listCount c ns = 0 ∧ listDetails c ns = []
  | [] => by intro h; exact ⟨by rw [listCount], by rw [listDetails]⟩
  | n :: rest => by
    intro h
    rw [listHasDecision] at h
    simp only [Bool.or_eq_false_iff] at h
    have h1 := nodeCount_no_decision c n h.1
    have h2 := listCount_no_decision c rest h.2
    rw [listCount, listDetails]
    simp [h1.1, h1.2, h2.1, h2.2]

end

/-- sumAmounts distributes over append. -/
theorem sumAmounts_append (a b : List ComplexityDetail) :
    sumAmounts (a ++ b) = sumAmounts a + sumAmounts b := by
  unfold sumAmounts
  rw [List.foldr_append]
  induction a with
  | nil => simp
  | cons d rest ih => simp [ih, Nat.add_assoc]

/-- Per-node: the emitted amounts sum to the increment. -/
theorem sumAmounts_own (c : Config) (k : NodeKind) (line : Nat) :
    sumAmounts (nodeOwnDetails c k line) = nodeIncrement c k := by
  unfold nodeOwnDetails nodeIncrement
  cases hk : simpleHandlerFor k with
  | none => rfl
  | some hnd =>
    obtain ⟨tn, desc, key⟩ := hnd
    by_cases hc : cfgGet c key true <;> simp [hc, sumAmounts]

mutual

/-- Subtree: the emitted amounts sum to the count. -/
theorem sumAmounts_nodeDetails (c : Config) :
    ∀ n : PyNode, sumAmounts (nodeDetails c n) = nodeCount c n
  | .node k line children => by
    rw [nodeDetails, nodeCount, sumAmounts_append, sumAmounts_own,
      sumAmounts_listDetails c children]

/-- List version of sumAmounts_nodeDetails. -/
theorem sumAmounts_listDetails (c : Config) :
    ∀ ns : List PyNode, sumAmounts (listDetails c ns) = listCount c ns
  | [] => by rw [listDetails, listCount]; rfl
  | n :: rest => by
    rw [listDetails, listCount, sumAmounts_append,
      sumAmounts_nodeDetails c n, sumAmounts_listDetails c rest]

end

/-- cfgGet after setting one flag. -/
theorem cfgGet_setFlag (c : Config) (key : String) (v : Bool) (k : String)
    (d : Bool) :
    cfgGet (setFlag c key v) k d = if k == key then v else cfgGet c k d := by
  simp only [cfgGet, setFlag, List.lookup]
  cases h : k == key <;> simp [h]

/-- If the walked directories before some point all lack the override
file, the search result is that of the remaining directories. -/
theorem find_skips_absent (pre rest : List ConfigFileState)
    (hpre : ∀ d ∈ pre, d = ConfigFileState.absent) :
    find_project_config (pre ++ rest) = find_project_config rest := by
  induction pre with
  | nil => rfl
  | cons d ds ih =>
    have hd := hpre d (by simp)
    subst hd
    rw [List.cons_append, find_project_config]
    exact ih (fun x hx => hpre x (by simp [hx]))

/-- Claim C1 (code behavior at the failing input): on a module whose
outer function contains a nested inner function with an if statement,
the analyzer emits exactly one FunctionRecord, for outer, and scores
it 2: the if inside the nested function is counted into the outer
score, and inner receives no record of its own.  The claim expects
outer to score 1 and inner to receive an independent record. -/
theorem C1_nested_function_behavior :
    (analyze standardConfig outerInnerModule).functions.map
      (fun f => (f.name, f.complexity)) = [("outer", 2)]
    ∧ (analyze standardConfig outerInnerModule).total_functions = 1 := by
  constructor
  · decide
  · decide

/-- Claim C2 (counterexample): under the standard preset the function
g with body a and b or not a is scored 1, not 2 as the claim states. -/
theorem C2_counterexample :
    ¬ ((analyze standardConfig gModule).functions.map
        (fun f => f.complexity) = [2])
    ∧ (analyze standardConfig gModule).functions.map
        (fun f => f.complexity) = [1] := by
  constructor
  · decide
  · decide

/-- Claim C2 (amended): under the strict preset g is scored 1 with an
empty contribution list, and under the standard preset g is likewise
scored 1 with an empty contribution list, because the overriding visit
of ComplexityCounter bypasses dispatch to the boolean-operator
handler. -/
theorem C2_amended_behavior :
    (analyze strict_mccabe gModule).functions.map
      (fun f => (f.complexity, f.details)) = [(1, [])]
    ∧ (analyze standardConfig gModule).functions.map
      (fun f => (f.complexity, f.details)) = [(1, [])] := by
  constructor
  · decide
  · decide

/-- Claim C3 (code behavior at the failing input): with every flag
enabled, a function whose body is the two-operand chain a and b is
scored 1 with no contributions: the executed pass adds 0 for the
chain.  The unreachable visit_BoolOp handler would have added
N minus 1 = 1 for it, as the second conjunct shows. -/
theorem C3_boolop_not_counted :
    (analyze comprehensiveConfig andModule).functions.map
      (fun f => (f.complexity, f.details)) = [(1, [])]
    ∧ ((ComplexityCounter.init comprehensiveConfig true).visit_BoolOp
        .bAnd 1 [.node (.kOther "Name") 1 [], .node (.kOther "Name") 1 []]
        ).complexity = 2 := by
  constructor
  · decide
  · decide

/-- Claim C4 (code behavior at the failing input): with every flag
enabled, a function containing a match statement with one value case
and one bare wildcard case is scored 1 with no contributions: the
executed pass adds 0 for the match.  The unreachable visit_Match
handler would have added K minus 1 = 1, as the second conjunct
shows. -/
theorem C4_match_not_counted :
    (analyze comprehensiveConfig matchModule).functions.map
      (fun f => (f.complexity, f.details)) = [(1, [])]
    ∧ ((ComplexityCounter.init comprehensiveConfig true).visit_Match 2
        [.node (.kOther "Name") 2 [],
         .node (.kMatchCase false none) 3 [],
         .node (.kMatchCase true none) 4 []]).complexity = 2 := by
  constructor
  · decide
  · decide

/-- Claim C5: the score is monotone in the rule set: with all else
fixed, setting any single flag to true never yields a smaller score
than setting it to false; the strict preset never scores above the
standard preset, which never scores above the comprehensive preset;
and within one pass the score starts at the base 1 and never
decreases as the subtree is traversed. -/
theorem C5_monotonicity :
    (∀ (c : Config) (key : String) (t : PyNode),
        ((ComplexityCounter.init (setFlag c key false) true).visit t).complexity ≤
          ((ComplexityCounter.init (setFlag c key true) true).visit t).complexity)
    ∧ (∀ t : PyNode,
        ((ComplexityCounter.init strict_mccabe true).visit t).complexity ≤
          ((ComplexityCounter.init standardConfig true).visit t).complexity ∧
        ((ComplexityCounter.init standardConfig true).visit t).complexity ≤
          ((ComplexityCounter.init comprehensiveConfig true).visit t).complexity)
    ∧ (∀ (s : ComplexityCounter) (t : PyNode),
        s.complexity ≤ (s.visit t).complexity)
    ∧ (∀ (c : Config) (b : Bool), (ComplexityCounter.init c b).complexity = 1) := by
  refine ⟨?_, ?_, ?_, ?_⟩
  · intro c key t
    rw [run_complexity, run_complexity]
    have h : ∀ k ∈ simpleKeys,
        cfgGet (setFlag c key false) k true = true →
        cfgGet (setFlag c key true) k true = true := by
      intro k _ hk
      by_cases hke : k == key
      · rw [cfgGet_setFlag, if_pos hke] at hk
        exact absurd hk (by simp)
      · rw [cfgGet_setFlag, if_neg hke] at hk
        rw [cfgGet_setFlag, if_neg hke]
        exact hk
    exact Nat.add_le_add_left (nodeCount_mono _ _ h t) 1
  · intro t
    constructor
    · rw [run_complexity, run_complexity]
      have h : ∀ k ∈ simpleKeys,
          cfgGet strict_mccabe k true = true →
          cfgGet standardConfig k true = true := by decide
      exact Nat.add_le_add_left (nodeCount_mono _ _ h t) 1
    · rw [run_complexity, run_complexity]
      have h : ∀ k ∈ simpleKeys,
          cfgGet standardConfig k true = true →
          cfgGet comprehensiveConfig k true = true := by decide
      exact Nat.add_le_add_left (nodeCount_mono _ _ h t) 1
  · intro s t
    rw [ComplexityCounter.visit_spec]
    exact Nat.le_add_right _ _
  · intro c b
    rfl

/-- Claim C8: a function subtree without decision-point constructs is
scored exactly 1 with an empty contribution list, for every
configuration. -/
theorem C8_no_decision_points (c : Config) (t : PyNode)
    (h : hasDecision t = false) :
    ((ComplexityCounter.init c true).visit t).complexity = 1 ∧
    ((ComplexityCounter.init c true).visit t).details = [] := by
  have hn := nodeCount_no_decision c t h
  rw [run_complexity, run_details]
  simp [hn.1, hn.2]

/-- Witness for C8, at the decision-free function h returning 1. -/
theorem C8_witness :
    ((ComplexityCounter.init standardConfig true).visit plainDef).complexity = 1 ∧
    ((ComplexityCounter.init standardConfig true).visit plainDef).details = [] :=
  C8_no_decision_points standardConfig plainDef (by decide)

/-- Claim C9: with detail collection enabled, every increment of the
score appends exactly one contribution carrying the same amount, the
invariant score = 1 + sum of amounts is preserved by every visit step,
and the final score of a pass equals 1 plus the sum of the amounts of
its contribution list. -/
theorem C9_score_details_invariant :
    (∀ (s : ComplexityCounter) (amount : Nat) (ty : String) (line : Nat)
        (desc : String), s.collect_details = true →
        (s._add_complexity amount ty line desc).complexity =
            s.complexity + amount ∧
        (s._add_complexity amount ty line desc).details =
            s.details ++ [⟨ty, line, amount, desc⟩])
    ∧ (∀ (s : ComplexityCounter) (t : PyNode), s.collect_details = true →
        s.complexity = 1 + sumAmounts s.details →
        (s.visit t).complexity = 1 + sumAmounts (s.visit t).details)
    ∧ (∀ (c : Config) (t : PyNode),
        ((ComplexityCounter.init c true).visit t).complexity =
          1 + sumAmounts ((ComplexityCounter.init c true).visit t).details) := by
  refine ⟨?_, ?_, ?_⟩
  · intro s amount ty line desc hcol
    simp [ComplexityCounter._add_complexity, hcol]
  · intro s t hcol hinv
    rw [ComplexityCounter.visit_spec]
    simp only [hcol, if_true]
    simp [sumAmounts_append, sumAmounts_nodeDetails, hinv, Nat.add_assoc]
  · intro c t
    rw [run_complexity, run_details, sumAmounts_nodeDetails]

/-- Witness for C9, at a fresh standard-preset counter and the
function g. -/
theorem C9_witness :
    ((ComplexityCounter.init standardConfig true).visit gDef).complexity =
      1 + sumAmounts ((ComplexityCounter.init standardConfig true).visit gDef).details :=
  C9_score_details_invariant.2.1 (ComplexityCounter.init standardConfig true)
    gDef (by rfl) (by decide)

/-- Claim C10: a flag key absent from the configuration is treated as
enabled: adding the explicit entry true for an absent key changes
neither the score nor the contribution list, and the empty
configuration behaves exactly like the all-flags-enabled
comprehensive preset. -/
theorem C10_absent_flag_defaults_true (c : Config) (key : String) (t : PyNode)
    (h : List.lookup key c.flags = none) :
    (((ComplexityCounter.init c true).visit t).complexity =
        ((ComplexityCounter.init (setFlag c key true) true).visit t).complexity
      ∧ ((ComplexityCounter.init c true).visit t).details =
        ((ComplexityCounter.init (setFlag c key true) true).visit t).details)
    ∧ (((ComplexityCounter.init emptyConfig true).visit t).complexity =
        ((ComplexityCounter.init comprehensiveConfig true).visit t).complexity
      ∧ ((ComplexityCounter.init emptyConfig true).visit t).details =
        ((ComplexityCounter.init comprehensiveConfig true).visit t).details) := by
  have hcong : ∀ k ∈ simpleKeys,
      cfgGet c k true = cfgGet (setFlag c key true) k true := by
    intro k _
    by_cases hke : k == key
    · rw [cfgGet_setFlag, if_pos hke]
      have hkk : k = key := by simpa using hke
      subst hkk
      simp [cfgGet, h]
    · rw [cfgGet_setFlag, if_neg hke]
  have hempty : ∀ k ∈ simpleKeys,
      cfgGet emptyConfig k true = cfgGet comprehensiveConfig k true := by decide
  refine ⟨⟨?_, ?_⟩, ?_, ?_⟩
  · rw [run_complexity, run_complexity, nodeCount_congr _ _ hcong t]
  · rw [run_details, run_details, nodeDetails_congr _ _ hcong t]
  · rw [run_complexity, run_complexity, nodeCount_congr _ _ hempty t]
  · rw [run_details, run_details, nodeDetails_congr _ _ hempty t]

/-- Witness for C10, at the standard preset, a key it does not
define, and the function g. -/
theorem C10_witness :
    (((ComplexityCounter.init standardConfig true).visit gDef).complexity =
        ((ComplexityCounter.init (setFlag standardConfig "countLambda" true) true).visit gDef).complexity
      ∧ ((ComplexityCounter.init standardConfig true).visit gDef).details =
        ((ComplexityCounter.init (setFlag standardConfig "countLambda" true) true).visit gDef).details)
    ∧ (((ComplexityCounter.init emptyConfig true).visit gDef).complexity =
        ((ComplexityCounter.init comprehensiveConfig true).visit gDef).complexity
      ∧ ((ComplexityCounter.init emptyConfig true).visit gDef).details =
        ((ComplexityCounter.init comprehensiveConfig true).visit gDef).details) :=
  C10_absent_flag_defaults_true standardConfig "countLambda" gDef (by decide)

/-- Claim C6: a malformed override file found by the upward search
produces a warning on the diagnostic stream, resolution proceeds with
the preset-only rule set exactly as if no override were present,
analysis succeeds, and its result is identical to the no-override
result, so the warning appears nowhere in it. -/
theorem C6_malformed_override_nonfatal (pre rest : List ConfigFileState)
    (msg : String) (preset : Option String) (t : PyNode)
    (hpre : ∀ d ∈ pre, d = ConfigFileState.absent) :
    (load_config preset (pre ++ ConfigFileState.malformed msg :: rest) none).2 =
      ["Warning: Failed to load .complexity.json: " ++ msg]
    ∧ (load_config preset (pre ++ ConfigFileState.malformed msg :: rest) none).1 =
        (load_config preset [] none).1
    ∧ (analyze (load_config preset
          (pre ++ ConfigFileState.malformed msg :: rest) none).1 t).success = true
    ∧ analyze (load_config preset
          (pre ++ ConfigFileState.malformed msg :: rest) none).1 t =
        analyze (load_config preset [] none).1 t := by
  have hf : find_project_config (pre ++ ConfigFileState.malformed msg :: rest) =
      (none, ["Warning: Failed to load .complexity.json: " ++ msg]) := by
    rw [find_skips_absent pre _ hpre, find_project_config]
  have h1 : (load_config preset (pre ++ ConfigFileState.malformed msg :: rest) none).1 =
      (load_config preset [] none).1 := by
    simp [load_config, hf, find_project_config]
  refine ⟨?_, h1, ?_, ?_⟩
  · simp [load_config, hf]
  · simp [analyze]
  · rw [h1]

/-- Witness for C6, at a two-directory walk whose second directory
holds an unparseable override file. -/
theorem C6_witness :
    (load_config (some "standard")
        ([ConfigFileState.absent] ++ ConfigFileState.malformed "bad" :: []) none).2 =
      ["Warning: Failed to load .complexity.json: " ++ "bad"]
    ∧ (load_config (some "standard")
        ([ConfigFileState.absent] ++ ConfigFileState.malformed "bad" :: []) none).1 =
        (load_config (some "standard") [] none).1
    ∧ (analyze (load_config (some "standard")
          ([ConfigFileState.absent] ++ ConfigFileState.malformed "bad" :: []) none).1
        plainModule).success = true
    ∧ analyze (load_config (some "standard")
          ([ConfigFileState.absent] ++ ConfigFileState.malformed "bad" :: []) none).1
        plainModule =
        analyze (load_config (some "standard") [] none).1 plainModule :=
  C6_malformed_override_nonfatal [ConfigFileState.absent] [] "bad"
    (some "standard") plainModule (by decide)

/-- Claim C7: resolution never fails on the preset name: a name that
is a key of the preset table selects that preset as the base rule
set, and any other name, or no name, silently selects the standard
preset. -/
theorem C7_preset_fallback :
    (∀ (p : String) (pr : Config), List.lookup p PRESETS = some pr →
        selectBasePreset (some p) = pr)
    ∧ (∀ p : String, List.lookup p PRESETS = none →
        selectBasePreset (some p) = standardConfig)
    ∧ selectBasePreset none = standardConfig
    ∧ (∀ p : Option String, (load_config p [] none).1 = selectBasePreset p) := by
  refine ⟨?_, ?_, rfl, ?_⟩
  · intro p pr h
    by_cases hp : p == ""
    · have hpe : p = "" := by simpa using hp
      subst hpe
      have hnone : List.lookup "" PRESETS = (none : Option Config) := by decide
      rw [hnone] at h
      exact absurd h (by simp)
    · rw [selectBasePreset, if_neg hp, h]
  · intro p h
    by_cases hp : p == ""
    · rw [selectBasePreset, if_pos hp]
    · rw [selectBasePreset, if_neg hp, h]
  · intro p
    simp [load_config, find_project_config]

/-- Witness for C7, at a known preset name and at an unknown one. -/
theorem C7_witness :
    selectBasePreset (some "comprehensive") = comprehensiveConfig
    ∧ selectBasePreset (some "nope") = standardConfig :=
  ⟨C7_preset_fallback.1 "comprehensive" comprehensiveConfig (by decide),
   C7_preset_fallback.2.1 "nope" (by decide)⟩
